import Mathlib

set_option maxHeartbeats 1000000
set_option maxRecDepth 100000

namespace Repkg

/-- The filesystem is modelled as the finite set of paths that currently exist
(directories and files alike), matching the repository's use of `os.Stat`
existence checks as the sole source of truth. -/
abbrev FS := Finset String

/-- Result of one HTTP GET as seen by `downloadPackage` (src/repkg.go:186):
either the transport fails, or a response arrives with a status code and a
flag telling whether streaming the body to disk (`io.Copy`) succeeds. -/
inductive HttpResult where
  | transportError
  | response (status : Nat) (bodyOk : Bool)
deriving DecidableEq, Repr

/-- Result of `targz.Extract` (src/repkg.go:160): failure, or success creating
one top-level entry named `top` inside the output directory. -/
inductive ExtractResult where
  | fail
  | ok (top : String)
deriving DecidableEq, Repr

/-- Body of the resolver's metadata response after Go's `json.Unmarshal`
(src/repkg.go:126): a malformed document is an unmarshal error, while any
well-formed JSON yields a `PackageInfo` whose `DistTags.Latest` field is the
string found in the document, or `""` when the field is absent (Go zero
value). -/
inductive JsonBody where
  | malformed
  | fields (latest : String)
deriving DecidableEq, Repr

/-- What `findPackageInfo`'s HTTP round trip (src/repkg.go:106-123) can do:
request construction error, transport error, body read error, or a response
with a status code and a body. -/
inductive ResolverResult where
  | reqError
  | doError
  | readError
  | ok (status : Nat) (body : JsonBody)
deriving DecidableEq, Repr

/-- The external world: network responses keyed by URL for the archive
download and for the metadata endpoint, and the outcome of extracting the
archive at a given path into a given directory. -/
structure Env where
  net : String → HttpResult
  resolveAt : String → ResolverResult
  extract : String → String → ExtractResult

/-- `registryHost` (src/repkg.go:138). -/
def registryHost : String := "http://localhost:4873"

/-- `URL` as built in `fetchPackage` (src/repkg.go:139): the registry host,
a slash, `packageName`, the literal segment slash-dash-slash, then
`packageName + "-" + packageVersion + ".tgz"`. Note the second occurrence of
the full `packageName` (which the caller forms as `scope + "/" + name`). -/
def packageURL (packageName packageVersion : String) : String :=
  registryHost ++ "/" ++ packageName ++ "/-/" ++ packageName ++ "-" ++ packageVersion ++ ".tgz"

/-- `fileName` as built in `fetchPackage` (src/repkg.go:140). -/
def archiveFileName (packageName packageVersion : String) : String :=
  "packages/" ++ packageName ++ "/" ++ packageVersion ++ ".tgz"

/-- `outputDir` as built in `fetchPackage` (src/repkg.go:141). -/
def outputDirOf (packageName : String) : String :=
  "packages/" ++ packageName

/-- The version-qualified final directory `outputDir + "@" + packageVersion`
checked at src/repkg.go:143 and produced by the rename at src/repkg.go:167. -/
def finalDirOf (packageName packageVersion : String) : String :=
  outputDirOf packageName ++ "@" ++ packageVersion

/-- `e` is a path strictly beneath directory `dir`, i.e. it starts with
`dir ++ "/"`. Stated over the character lists so that it evaluates by
structural recursion. -/
def pathUnder (dir e : String) : Prop :=
  List.IsPrefix (dir ++ "/").data e.data

instance (dir e : String) : Decidable (pathUnder dir e) :=
  decidable_of_iff (List.isPrefixOf (dir ++ "/").data e.data = true)
    (by simp [pathUnder, List.isPrefixOf_iff_prefix])

/-- `os.Remove` (src/repkg.go:175 and 179): fails when the path does not
exist, or when it is a directory that still has entries beneath it;
otherwise deletes the entry. -/
def removeEntry (p : String) (fs : FS) : Except String FS :=
  if p ∈ fs then
    if ∃ e ∈ fs, pathUnder p e then .error "directory not empty"
    else .ok (fs.erase p)
  else .error "no such file or directory"

/-- `downloadPackage` (src/repkg.go:185-210). `http.Get` may fail at the
transport level; then the status code is compared against 200; only then is
the destination file created (`os.Create`) and the body streamed into it
(`io.Copy`), which may itself fail. The function returns the error of the
failing step; it never deletes the destination file. -/
def downloadPackage (env : Env) (URL fileName : String) (fs : FS) :
    Except String Unit × FS :=
  match env.net URL with
  | .transportError => (.error "transport error", fs)
  | .response status bodyOk =>
    if status ≠ 200 then (.error "received a non 200 response code", fs)
    else
      if bodyOk then (.ok (), insert fileName fs)
      else (.error "copy error", insert fileName fs)

/-- Process outcome of one `fetchPackage` call: normal return, or `log.Fatal`
(which exits the whole process, src/repkg.go:147,157,162,169,177,181). -/
inductive Outcome where
  | done
  | fatal (msg : String)
deriving DecidableEq, Repr

/-- Result of running `fetchPackage`: the outcome, the filesystem afterwards,
the URLs handed to `downloadPackage` (network calls), and the paths handed to
`os.MkdirAll` (filesystem writes besides download/extract/rename/remove). -/
structure FetchResult where
  outcome : Outcome
  fs : FS
  downloads : List String
  dirsMade : List String
deriving DecidableEq

/-- The conditional rename (src/repkg.go:165-171): when `outputDir/package`
exists it is renamed to the version-qualified final directory. -/
def renamePhase (packageName packageVersion : String) (fs : FS) : FS :=
  if outputDirOf packageName ++ "/package" ∈ fs then
    insert (finalDirOf packageName packageVersion)
      (fs.erase (outputDirOf packageName ++ "/package"))
  else fs

/-- The two `os.Remove` calls at the end of `fetchPackage`
(src/repkg.go:175-182): first the downloaded archive, then the staging
directory; each failure is a `log.Fatal`. -/
def cleanupPhase (packageName packageVersion : String) (fs : FS) : Outcome × FS :=
  match removeEntry (archiveFileName packageName packageVersion) fs with
  | .error e => (.fatal e, fs)
  | .ok fs5 =>
    match removeEntry (outputDirOf packageName) fs5 with
    | .error e => (.fatal e, fs5)
    | .ok fs6 => (.done, fs6)

/-- `targz.Extract` followed by rename and cleanup (src/repkg.go:160-182).
Extraction failure is a `log.Fatal`; success creates the archive's top-level
entry inside the output directory. -/
def extractPhase (env : Env) (packageName packageVersion : String) (fs : FS) :
    Outcome × FS :=
  match env.extract (archiveFileName packageName packageVersion) (outputDirOf packageName) with
  | .fail => (.fatal "extract error", fs)
  | .ok top =>
    cleanupPhase packageName packageVersion
      (renamePhase packageName packageVersion
        (insert (outputDirOf packageName ++ "/" ++ top) fs))

/-- `fetchPackage` (src/repkg.go:137-183). If the version-qualified final
directory already exists the function returns at once (src/repkg.go:149-153)
with no download and no filesystem change; otherwise it creates the staging
directory (`os.MkdirAll`), downloads the archive, extracts, conditionally
renames, and removes the archive and the staging directory, any failure
being a `log.Fatal`. -/
def fetchPackage (env : Env) (packageName packageVersion : String) (fs : FS) :
    FetchResult :=
  if finalDirOf packageName packageVersion ∈ fs then
    -- "Package and version already exist, nothing to do..."
    ⟨.done, fs, [], []⟩
  else
    match downloadPackage env (packageURL packageName packageVersion)
        (archiveFileName packageName packageVersion)
        (insert (outputDirOf packageName) fs) with
    | (.error e, fs2) =>
      ⟨.fatal e, fs2, [packageURL packageName packageVersion], [outputDirOf packageName]⟩
    | (.ok _, fs2) =>
      match extractPhase env packageName packageVersion fs2 with
      | (o, fs3) =>
        ⟨o, fs3, [packageURL packageName packageVersion], [outputDirOf packageName]⟩

/-- `npmApi` as built in `findPackageInfo` (src/repkg.go:100). -/
def npmApiURL (scope name : String) : String :=
  "http://localhost:4873/-/verdaccio/data/sidebar/" ++ scope ++ "/" ++ name

/-- `findPackageInfo` (src/repkg.go:99-135). Returns an error if building the
request, performing it, reading the body, or unmarshalling fails; otherwise
returns `pkgInfo.DistTags.Latest`. The response status code is never
inspected, and a JSON document without a `dist-tags.latest` field yields the
Go zero value `""`. -/
def findPackageInfo (env : Env) (scope name : String) : Except String String :=
  match env.resolveAt (npmApiURL scope name) with
  | .reqError => .error "request error"
  | .doError => .error "client do error"
  | .readError => .error "read error"
  | .ok _status body =>
    match body with
    | .malformed => .error "unmarshal error"
    | .fields latest => .ok latest

/-- The version the handler actually uses (src/repkg.go:45-50): the raw route
parameter when it has length ≥ 2, otherwise the result of `findPackageInfo`
with the error ignored (`version, _ = findPackageInfo(scope, name)`), which
leaves `""` on failure. -/
def resolvedVersion (env : Env) (scope name version : String) : String :=
  if version.length < 2 then
    match findPackageInfo env scope name with
    | .ok v => v
    | .error _ => ""
  else version

/-- What the route handler sends back (src/repkg.go:58-62), or the fact that
the process died inside `fetchPackage` (`log.Fatal`). -/
inductive Response where
  | redirect (status : Nat) (location : String)
  | text (status : Nat) (body : String)
  | fatalExit (msg : String)
deriving DecidableEq, Repr

/-- Result of one request through the `GET /npm/:scope/:name/[wildcard]version`
route. -/
structure HandlerResult where
  response : Response
  fs : FS
  downloads : List String
  dirsMade : List String
deriving DecidableEq

/-- The route handler (src/repkg.go:42-63): resolve the version when the
parameter is shorter than two characters, call `fetchPackage`, then redirect
to `/packages/<packageName>@<version>` when `packages/<packageName>` does NOT
exist, and answer `"Hello <name>"` when it does. -/
def handleNpmRequest (env : Env) (scope name version : String) (fs : FS) :
    HandlerResult :=
  let packageName := scope ++ "/" ++ name
  let v := resolvedVersion env scope name version
  let r := fetchPackage env packageName v fs
  match r.outcome with
  | .fatal e => ⟨.fatalExit e, r.fs, r.downloads, r.dirsMade⟩
  | .done =>
    if ("packages/" ++ packageName) ∈ r.fs then
      ⟨.text 200 ("Hello " ++ name), r.fs, r.downloads, r.dirsMade⟩
    else
      ⟨.redirect 302 ("/packages/" ++ packageName ++ "@" ++ v), r.fs, r.downloads, r.dirsMade⟩

/-! ## Concrete environments used for witnesses and counterexamples -/

/-- An upstream that always answers: archive downloads succeed, the metadata
endpoint reports `1.2.3` as latest, and archives extract to a top-level
`package` directory (the layout npm tarballs use). -/
def benignEnv : Env :=
  ⟨fun _ => .response 200 true, fun _ => .ok 200 (.fields "1.2.3"), fun _ _ => .ok "package"⟩

/-- An upstream whose TCP connections all fail. -/
def transportFailEnv : Env :=
  ⟨fun _ => .transportError, fun _ => .doError, fun _ _ => .fail⟩

/-- An upstream that answers every request with HTTP 404; the metadata
endpoint's 404 body is valid JSON without a `dist-tags.latest` field. -/
def notFound404Env : Env :=
  ⟨fun _ => .response 404 true, fun _ => .ok 404 (.fields ""), fun _ _ => .fail⟩

/-- An upstream that accepts the request (HTTP 200) but whose response body
stream breaks midway through `io.Copy`. -/
def streamFailEnv : Env :=
  ⟨fun _ => .response 200 false, fun _ => .doError, fun _ _ => .fail⟩

/-! ## Helper lemmas -/

theorem removeEntry_ok_eq {p : String} {fs fs' : FS}
    (h : removeEntry p fs = .ok fs') : fs' = fs.erase p := by
  unfold removeEntry at h
  split at h
  · split at h
    · cases h
    · injection h with h
      exact h.symm
  · cases h

theorem finalDir_ne_outputDir (pn pv : String) :
    finalDirOf pn pv ≠ outputDirOf pn := by
  intro h
  have hl := congrArg String.length h
  have h1 : "@".length = 1 := rfl
  simp only [finalDirOf, String.length_append, h1] at hl
  omega

theorem finalDir_ne_fileName (pn pv : String) :
    finalDirOf pn pv ≠ archiveFileName pn pv := by
  intro h
  have hd := congrArg String.data h
  have h1 : "@".data = ['@'] := rfl
  have h2 : "/".data = ['/'] := rfl
  simp only [finalDirOf, archiveFileName, outputDirOf, String.data_append,
    h1, h2, List.append_assoc, List.cons_append, List.nil_append] at hd
  simp only [List.cons.injEq, true_and] at hd
  have := List.append_cancel_left hd
  simp at this

/-! ## Claims -/

/-- C1. Idempotence of the orchestration: when the version-qualified final
directory `packages/<scope>/<name>@<version>` already exists, `fetchPackage`
completes normally, leaves the filesystem exactly as it was, performs no
network call and creates no directory — however often it is invoked, since
the state is unchanged. -/
theorem fetchPackage_cached_noop (env : Env) (pn pv : String) (fs : FS)
    (h : finalDirOf pn pv ∈ fs) :
    fetchPackage env pn pv fs = ⟨.done, fs, [], []⟩ := by
  unfold fetchPackage
  rw [if_pos h]

theorem fetchPackage_cached_noop_witness :
    finalDirOf "@foo/bar" "1.2.3" ∈ (insert (finalDirOf "@foo/bar" "1.2.3") (∅ : FS)) ∧
    fetchPackage benignEnv "@foo/bar" "1.2.3"
        (insert (finalDirOf "@foo/bar" "1.2.3") ∅) =
      ⟨.done, insert (finalDirOf "@foo/bar" "1.2.3") ∅, [], []⟩ :=
  ⟨Finset.mem_insert_self _ _,
   fetchPackage_cached_noop benignEnv "@foo/bar" "1.2.3" _ (Finset.mem_insert_self _ _)⟩

/-- C2. The claim says every resolution/fetch/extract/filesystem failure is
returned to the specific caller and never terminates the service process.
The code instead calls `log.Fatal` (process exit) on any download, extract,
rename or remove failure (src/repkg.go:147,157,162,169,177,181): on a mere
transport failure while downloading a first-time package, the whole process
dies instead of answering that request with an error. -/
theorem handler_dies_on_download_failure :
    (handleNpmRequest transportFailEnv "@foo" "bar" "1.2.3" ∅).response =
      .fatalExit "transport error" := by decide

/-- C9. No validation is performed on the route parameters: with
scope = `..` and name = `..` the handler happily runs `os.MkdirAll` on the
traversal path `packages/../..`, downloads from a URL containing the
traversal components, and serves a redirect — no request is ever rejected. -/
theorem handler_traversal_unvalidated :
    (handleNpmRequest benignEnv ".." ".." "1.0.0" ∅).dirsMade = ["packages/../.."] ∧
    (handleNpmRequest benignEnv ".." ".." "1.0.0" ∅).downloads = [packageURL "../.." "1.0.0"] ∧
    (handleNpmRequest benignEnv ".." ".." "1.0.0" ∅).response =
      .redirect 302 "/packages/../..@1.0.0" := by decide

/-- C10. In `downloadPackage`, when the GET succeeds at the transport level
but the status code is not 200, the function returns the error before
`os.Create` is reached, so the filesystem is returned completely unchanged —
no file is created at the destination at all. -/
theorem downloadPackage_non200_no_file (env : Env) (URL fileName : String)
    (fs : FS) (st : Nat) (b : Bool)
    (h : env.net URL = .response st b) (hst : st ≠ 200) :
    downloadPackage env URL fileName fs =
      (.error "received a non 200 response code", fs) := by
  simp [downloadPackage, h, hst]

theorem downloadPackage_non200_no_file_witness :
    notFound404Env.net (packageURL "@foo/bar" "1.2.3") = .response 404 true ∧
    (404 : Nat) ≠ 200 ∧
    downloadPackage notFound404Env (packageURL "@foo/bar" "1.2.3")
        (archiveFileName "@foo/bar" "1.2.3") ∅ =
      (.error "received a non 200 response code", ∅) :=
  ⟨rfl, by decide,
   downloadPackage_non200_no_file notFound404Env _ _ ∅ 404 true rfl (by decide)⟩

/-- C6 (counterexample). `findPackageInfo` checks neither the status code nor
the presence of the `latest` tag: an HTTP 404 whose JSON body lacks
`dist-tags` produces a successful return with the empty version. -/
theorem findPackageInfo_non200_success_cex :
    findPackageInfo notFound404Env "@foo" "bar" = .ok "" := rfl

/-- C6 (amended). `findPackageInfo` fails exactly when building the request,
performing it, reading the body, or unmarshalling fails; the response status
code is never inspected: any parseable JSON body yields success with
whatever `dist-tags.latest` string it carries — the Go zero value `""` when
the field is absent. -/
theorem findPackageInfo_ignores_status (env : Env) (scope name : String)
    (st : Nat) (l : String)
    (h : env.resolveAt (npmApiURL scope name) = .ok st (.fields l)) :
    findPackageInfo env scope name = .ok l := by
  unfold findPackageInfo
  rw [h]

theorem findPackageInfo_ignores_status_witness :
    notFound404Env.resolveAt (npmApiURL "@foo" "bar") = .ok 404 (.fields "") ∧
    findPackageInfo notFound404Env "@foo" "bar" = .ok "" :=
  ⟨rfl, findPackageInfo_ignores_status notFound404Env "@foo" "bar" 404 "" rfl⟩

/-- C7 (counterexample). When the body stream breaks during `io.Copy`, the
destination file has already been created by `os.Create`; `downloadPackage`
returns the error but the partial file is left at the destination — it is
not removed. -/
theorem downloadPackage_copy_error_leaves_file_cex :
    (downloadPackage streamFailEnv (packageURL "@foo/bar" "1.2.3")
        (archiveFileName "@foo/bar" "1.2.3") ∅).1 = .error "copy error" ∧
    archiveFileName "@foo/bar" "1.2.3" ∈
      (downloadPackage streamFailEnv (packageURL "@foo/bar" "1.2.3")
        (archiveFileName "@foo/bar" "1.2.3") ∅).2 := ⟨rfl, by decide⟩

/-- C7 (amended). `downloadPackage` creates no file when the transport fails
or the status is not 200; but when streaming the body fails after the file
was created, the error is returned with the partial destination file still
in place (there is no remove-on-error). -/
theorem downloadPackage_failure_behavior (env : Env) (URL fileName : String)
    (fs : FS) :
    (env.net URL = .transportError →
      downloadPackage env URL fileName fs = (.error "transport error", fs)) ∧
    (env.net URL = .response 200 false →
      (downloadPackage env URL fileName fs).1 = .error "copy error" ∧
      fileName ∈ (downloadPackage env URL fileName fs).2) := by
  constructor
  · intro h
    unfold downloadPackage
    rw [h]
  · intro h
    unfold downloadPackage
    rw [h]
    simp

theorem downloadPackage_failure_behavior_witness :
    transportFailEnv.net (packageURL "@foo/bar" "1.2.3") = .transportError ∧
    downloadPackage transportFailEnv (packageURL "@foo/bar" "1.2.3")
        (archiveFileName "@foo/bar" "1.2.3") ∅ = (.error "transport error", ∅) :=
  ⟨rfl, (downloadPackage_failure_behavior transportFailEnv _ _ ∅).1 rfl⟩

/-- C4 (counterexample). For scope `@foo`, name `bar`, version `1.2.3`, the
URL built by `fetchPackage` is NOT the spec's
`<registryBase>, <scope>, <name>, slash-dash-slash, <name>-<version>.tgz`
(whose archive filename segment would be the bare `bar-1.2.3.tgz`); the
code reuses the full `packageName` in the filename segment. -/
theorem packageURL_bare_name_cex :
    packageURL ("@foo" ++ "/" ++ "bar") "1.2.3" ≠
      registryHost ++ "/" ++ "@foo" ++ "/" ++ "bar" ++ "/-/" ++ "bar" ++ "-" ++ "1.2.3" ++ ".tgz" ∧
    packageURL ("@foo" ++ "/" ++ "bar") "1.2.3" =
      "http://localhost:4873/@foo/bar/-/@foo/bar-1.2.3.tgz" := by decide

/-- C4 (amended). For every identifier that requires a fetch, the URL passed
to the fetcher is the registry base, then `<scope>`, `<name>`, the
slash-dash-slash separator, and `<scope>`, `<name>-<version>.tgz`: the
filename segment repeats the scope-qualified package name, because
src/repkg.go:139 concatenates `packageName` (= `scope + "/" + name`) again
after the separator. -/
theorem fetchPackage_url_scoped_filename (env : Env) (scope name pv : String)
    (fs : FS) (h : finalDirOf (scope ++ "/" ++ name) pv ∉ fs) :
    (fetchPackage env (scope ++ "/" ++ name) pv fs).downloads =
      [registryHost ++ "/" ++ scope ++ "/" ++ name ++ "/-/" ++
        scope ++ "/" ++ name ++ "-" ++ pv ++ ".tgz"] := by
  have hurl : packageURL (scope ++ "/" ++ name) pv =
      registryHost ++ "/" ++ scope ++ "/" ++ name ++ "/-/" ++
        scope ++ "/" ++ name ++ "-" ++ pv ++ ".tgz" := by
    simp [packageURL, String.append_assoc]
  unfold fetchPackage
  rw [if_neg h]
  rcases hdl : downloadPackage env (packageURL (scope ++ "/" ++ name) pv)
      (archiveFileName (scope ++ "/" ++ name) pv)
      (insert (outputDirOf (scope ++ "/" ++ name)) fs) with ⟨res, fs2⟩
  cases res with
  | error e => simpa using hurl
  | ok u =>
    rcases hex : extractPhase env (scope ++ "/" ++ name) pv fs2 with ⟨o, fs3⟩
    simpa [hex] using hurl

theorem fetchPackage_url_scoped_filename_witness :
    finalDirOf ("@foo" ++ "/" ++ "bar") "1.2.3" ∉ (∅ : FS) ∧
    (fetchPackage benignEnv ("@foo" ++ "/" ++ "bar") "1.2.3" ∅).downloads =
      [registryHost ++ "/" ++ "@foo" ++ "/" ++ "bar" ++ "/-/" ++
        "@foo" ++ "/" ++ "bar" ++ "-" ++ "1.2.3" ++ ".tgz"] :=
  ⟨by decide, fetchPackage_url_scoped_filename benignEnv "@foo" "bar" "1.2.3" ∅ (by decide)⟩

/-- C5 (counterexample). The handler's response test looks at the staging
path `packages/<scope>/<name>` (without the version), not at the cache
directory: in a state where both `packages/@foo/bar` (a leftover staging
directory) and the servable cache entry `packages/@foo/bar@1.2.3` exist,
the cache entry is present (externally visible under the static route) yet
the handler answers the plain confirmation instead of the redirect. -/
theorem handler_confirmation_despite_cached_cex :
    finalDirOf ("@foo" ++ "/" ++ "bar") "1.2.3" ∈
      (handleNpmRequest benignEnv "@foo" "bar" "1.2.3"
        (insert "packages/@foo/bar" (insert "packages/@foo/bar@1.2.3" ∅))).fs ∧
    (handleNpmRequest benignEnv "@foo" "bar" "1.2.3"
        (insert "packages/@foo/bar" (insert "packages/@foo/bar@1.2.3" ∅))).response =
      .text 200 "Hello bar" := by decide

/-- C5 (amended). For every request that survives `fetchPackage` (no
`log.Fatal`), the handler redirects to
`/packages/<scope>/<name>@<version>` exactly when the version-LESS staging
path `packages/<scope>/<name>` does not exist afterwards, and answers the
plain `Hello <name>` confirmation exactly when that staging path exists —
the test is on the staging path, not on the version-qualified cache
directory. -/
theorem handler_redirect_iff_staging_absent (env : Env)
    (scope name version : String) (fs : FS)
    (hdone : (fetchPackage env (scope ++ "/" ++ name)
        (resolvedVersion env scope name version) fs).outcome = .done) :
    ((handleNpmRequest env scope name version fs).response =
        .redirect 302 ("/packages/" ++ (scope ++ "/" ++ name) ++ "@" ++
          resolvedVersion env scope name version) ↔
      ("packages/" ++ (scope ++ "/" ++ name)) ∉
        (fetchPackage env (scope ++ "/" ++ name)
          (resolvedVersion env scope name version) fs).fs) := by
  simp only [handleNpmRequest]
  rw [hdone]
  by_cases hmem : ("packages/" ++ (scope ++ "/" ++ name)) ∈
      (fetchPackage env (scope ++ "/" ++ name)
        (resolvedVersion env scope name version) fs).fs
  · simp [hmem]
  · simp [hmem]

theorem handler_redirect_iff_staging_absent_witness :
    (fetchPackage benignEnv ("@foo" ++ "/" ++ "bar")
        (resolvedVersion benignEnv "@foo" "bar" "1.2.3")
        (insert "packages/@foo/bar@1.2.3" ∅)).outcome = .done ∧
    ((handleNpmRequest benignEnv "@foo" "bar" "1.2.3"
        (insert "packages/@foo/bar@1.2.3" ∅)).response =
        .redirect 302 ("/packages/" ++ ("@foo" ++ "/" ++ "bar") ++ "@" ++
          resolvedVersion benignEnv "@foo" "bar" "1.2.3") ↔
      ("packages/" ++ ("@foo" ++ "/" ++ "bar")) ∉
        (fetchPackage benignEnv ("@foo" ++ "/" ++ "bar")
          (resolvedVersion benignEnv "@foo" "bar" "1.2.3")
          (insert "packages/@foo/bar@1.2.3" ∅)).fs) :=
  ⟨by decide, handler_redirect_iff_staging_absent benignEnv "@foo" "bar" "1.2.3" _ (by decide)⟩

theorem cleanupPhase_done_fs (pn pv : String) (fs : FS)
    (h : (cleanupPhase pn pv fs).1 = .done) :
    (cleanupPhase pn pv fs).2 =
      (fs.erase (archiveFileName pn pv)).erase (outputDirOf pn) := by
  revert h
  unfold cleanupPhase
  rcases hrm1 : removeEntry (archiveFileName pn pv) fs with e | fs5
  · simp
  · dsimp only
    rcases hrm2 : removeEntry (outputDirOf pn) fs5 with e | fs6
    · simp
    · intro _
      dsimp only
      rw [removeEntry_ok_eq hrm2, removeEntry_ok_eq hrm1]

/-- C8. Cleanup on success: whenever a first-time `fetchPackage` (final
directory absent, archive extracting to the conventional top-level
`package` directory) completes without `log.Fatal`, afterwards the
temporary archive `packages/<scope>/<name>/<version>.tgz` is gone, the
staging directory `packages/<scope>/<name>` is gone, and the final
`packages/<scope>/<name>@<version>` directory is present. -/
theorem fetchPackage_success_cleanup (env : Env) (pn pv : String) (fs : FS)
    (hfirst : finalDirOf pn pv ∉ fs)
    (hpkg : env.extract (archiveFileName pn pv) (outputDirOf pn) = .ok "package")
    (hdone : (fetchPackage env pn pv fs).outcome = .done) :
    archiveFileName pn pv ∉ (fetchPackage env pn pv fs).fs ∧
    outputDirOf pn ∉ (fetchPackage env pn pv fs).fs ∧
    finalDirOf pn pv ∈ (fetchPackage env pn pv fs).fs := by
  have hop : outputDirOf pn ++ "/" ++ "package" = outputDirOf pn ++ "/package" := by
    rw [String.append_assoc]
    rfl
  revert hdone
  unfold fetchPackage
  rw [if_neg hfirst]
  rcases hdl : downloadPackage env (packageURL pn pv) (archiveFileName pn pv)
      (insert (outputDirOf pn) fs) with ⟨res, fs2⟩
  cases res with
  | error e => intro hdone; exact absurd hdone (by simp)
  | ok u =>
    dsimp only
    have hex : extractPhase env pn pv fs2 =
        cleanupPhase pn pv (insert (finalDirOf pn pv)
          ((insert (outputDirOf pn ++ "/package") fs2).erase (outputDirOf pn ++ "/package"))) := by
      simp only [extractPhase, hpkg, hop, renamePhase]
      rw [if_pos (Finset.mem_insert_self _ _)]
    rw [hex]
    rcases hcl : cleanupPhase pn pv (insert (finalDirOf pn pv)
        ((insert (outputDirOf pn ++ "/package") fs2).erase
          (outputDirOf pn ++ "/package"))) with ⟨o, fs6⟩
    dsimp only
    cases o with
    | fatal e => intro hdone; exact absurd hdone (by simp)
    | done =>
      intro _
      have h1 : (cleanupPhase pn pv (insert (finalDirOf pn pv)
          ((insert (outputDirOf pn ++ "/package") fs2).erase
            (outputDirOf pn ++ "/package")))).1 = .done := by rw [hcl]
      have h2 := cleanupPhase_done_fs pn pv _ h1
      rw [hcl] at h2
      dsimp only at h2 ⊢
      rw [h2]
      refine ⟨?_, ?_, ?_⟩
      · simp [Finset.mem_erase]
      · simp
      · exact Finset.mem_erase.mpr ⟨finalDir_ne_outputDir pn pv,
          Finset.mem_erase.mpr ⟨finalDir_ne_fileName pn pv, Finset.mem_insert_self _ _⟩⟩

theorem fetchPackage_success_cleanup_witness :
    finalDirOf "@foo/bar" "1.2.3" ∉ (∅ : FS) ∧
    benignEnv.extract (archiveFileName "@foo/bar" "1.2.3") (outputDirOf "@foo/bar") =
      .ok "package" ∧
    (fetchPackage benignEnv "@foo/bar" "1.2.3" ∅).outcome = .done ∧
    (archiveFileName "@foo/bar" "1.2.3" ∉ (fetchPackage benignEnv "@foo/bar" "1.2.3" ∅).fs ∧
     outputDirOf "@foo/bar" ∉ (fetchPackage benignEnv "@foo/bar" "1.2.3" ∅).fs ∧
     finalDirOf "@foo/bar" "1.2.3" ∈ (fetchPackage benignEnv "@foo/bar" "1.2.3" ∅).fs) :=
  ⟨by decide, rfl, by decide,
   fetchPackage_success_cleanup benignEnv "@foo/bar" "1.2.3" ∅ (by decide) rfl (by decide)⟩

/-! ## Interleaving model for concurrent requests

Gin serves each request on its own goroutine (src/repkg.go:42), and
`fetchPackage` takes no lock: its existence check, directory creation,
download, extraction, rename and removals (src/repkg.go:143-182) are
separate operations on the shared filesystem. Each `PC` value names the next
such operation of one in-flight call, in source order; a scheduler picks
which goroutine moves. -/

/-- Program counter of one in-flight `fetchPackage` call. -/
inductive PC where
  | statCheck
  | mkdirAll
  | downloadStep
  | extractStep
  | renameStep
  | removeTgzStep
  | removeDirStep
  | finished
  | fatalStop
deriving DecidableEq, Repr

/-- Shared state of two concurrent handler goroutines serving the same
identifier: both program counters, the filesystem, and how many downloads
and extractions have been started so far. -/
structure SysState where
  pc1 : PC
  pc2 : PC
  fs : FS
  downloadCount : Nat
  extractCount : Nat
deriving DecidableEq

/-- One atomic step of a single `fetchPackage` call, reusing the very same
operations as the sequential embedding (`downloadPackage`, `renamePhase`,
`removeEntry`); failures that the code turns into `log.Fatal` stop the
goroutine at `fatalStop`. -/
def stepProc (env : Env) (pn pv : String) (pc : PC) (fs : FS)
    (dl ex : Nat) : PC × FS × Nat × Nat :=
  match pc with
  | .statCheck =>
    if finalDirOf pn pv ∈ fs then (.finished, fs, dl, ex)
    else (.mkdirAll, fs, dl, ex)
  | .mkdirAll => (.downloadStep, insert (outputDirOf pn) fs, dl, ex)
  | .downloadStep =>
    match downloadPackage env (packageURL pn pv) (archiveFileName pn pv) fs with
    | (.error _, fs') => (.fatalStop, fs', dl + 1, ex)
    | (.ok _, fs') => (.extractStep, fs', dl + 1, ex)
  | .extractStep =>
    match env.extract (archiveFileName pn pv) (outputDirOf pn) with
    | .fail => (.fatalStop, fs, dl, ex + 1)
    | .ok top => (.renameStep, insert (outputDirOf pn ++ "/" ++ top) fs, dl, ex + 1)
  | .renameStep => (.removeTgzStep, renamePhase pn pv fs, dl, ex)
  | .removeTgzStep =>
    match removeEntry (archiveFileName pn pv) fs with
    | .error _ => (.fatalStop, fs, dl, ex)
    | .ok fs' => (.removeDirStep, fs', dl, ex)
  | .removeDirStep =>
    match removeEntry (outputDirOf pn) fs with
    | .error _ => (.fatalStop, fs, dl, ex)
    | .ok fs' => (.finished, fs', dl, ex)
  | .finished => (.finished, fs, dl, ex)
  | .fatalStop => (.fatalStop, fs, dl, ex)

/-- Scheduler choice: `true` steps the first goroutine, `false` the second. -/
def stepSystem (env : Env) (pn pv : String) (s : SysState) (who : Bool) :
    SysState :=
  if who then
    match stepProc env pn pv s.pc1 s.fs s.downloadCount s.extractCount with
    | (pc', fs', dl', ex') => ⟨pc', s.pc2, fs', dl', ex'⟩
  else
    match stepProc env pn pv s.pc2 s.fs s.downloadCount s.extractCount with
    | (pc', fs', dl', ex') => ⟨s.pc1, pc', fs', dl', ex'⟩

/-- Run the two goroutines under a given schedule. -/
def runSchedule (env : Env) (pn pv : String) : SysState → List Bool → SysState
  | s, [] => s
  | s, w :: ws => runSchedule env pn pv (stepSystem env pn pv s w) ws

/-- C3. Single-flight is violated: two concurrent first-time requests for the
same identifier, under the schedule that lets both pass the existence check
of src/repkg.go:143 before either downloads, both run the full
fetch-and-extract sequence — two downloads and two extractions are executed
against a cooperative upstream, not "exactly one fetch and one extraction";
no mutual-exclusion mechanism exists in the code to prevent this. -/
theorem concurrent_first_time_double_download :
    (runSchedule benignEnv "@foo/bar" "1.2.3" ⟨.statCheck, .statCheck, ∅, 0, 0⟩
        [true, false, true, true, true, true, true, true,
         false, false, false, false, false, false]).pc1 = .finished ∧
    (runSchedule benignEnv "@foo/bar" "1.2.3" ⟨.statCheck, .statCheck, ∅, 0, 0⟩
        [true, false, true, true, true, true, true, true,
         false, false, false, false, false, false]).pc2 = .finished ∧
    (runSchedule benignEnv "@foo/bar" "1.2.3" ⟨.statCheck, .statCheck, ∅, 0, 0⟩
        [true, false, true, true, true, true, true, true,
         false, false, false, false, false, false]).downloadCount = 2 ∧
    (runSchedule benignEnv "@foo/bar" "1.2.3" ⟨.statCheck, .statCheck, ∅, 0, 0⟩
        [true, false, true, true, true, true, true, true,
         false, false, false, false, false, false]).extractCount = 2 := by decide

/-- Soundness of the interleaving model: a goroutine that runs alone (its
seven steps scheduled back to back, the other goroutine already finished)
computes exactly the sequential `fetchPackage` — same final filesystem, one
download per entry of `fetchPackage`'s download list, and it finishes
normally exactly when `fetchPackage` returns without `log.Fatal`. -/
theorem runSchedule_single_eq_fetchPackage (env : Env) (pn pv : String) (fs : FS) :
    (runSchedule env pn pv ⟨.statCheck, .finished, fs, 0, 0⟩
        [true, true, true, true, true, true, true]).fs = (fetchPackage env pn pv fs).fs ∧
    (runSchedule env pn pv ⟨.statCheck, .finished, fs, 0, 0⟩
        [true, true, true, true, true, true, true]).downloadCount =
      (fetchPackage env pn pv fs).downloads.length ∧
    ((runSchedule env pn pv ⟨.statCheck, .finished, fs, 0, 0⟩
        [true, true, true, true, true, true, true]).pc1 = .finished ↔
      (fetchPackage env pn pv fs).outcome = .done) := by
  by_cases hmem : finalDirOf pn pv ∈ fs
  · simp [runSchedule, stepSystem, stepProc, hmem, fetchPackage]
  · rcases hdl : downloadPackage env (packageURL pn pv) (archiveFileName pn pv)
        (insert (outputDirOf pn) fs) with ⟨res, fs2⟩
    cases res with
    | error e =>
      simp [runSchedule, stepSystem, stepProc, hmem, fetchPackage, hdl]
    | ok u =>
      rcases hext : env.extract (archiveFileName pn pv) (outputDirOf pn) with _ | top
      · simp [runSchedule, stepSystem, stepProc, hmem, fetchPackage, hdl,
          extractPhase, hext]
      · rcases hrm1 : removeEntry (archiveFileName pn pv)
            (renamePhase pn pv (insert (outputDirOf pn ++ "/" ++ top) fs2)) with e | fs5
        · simp [runSchedule, stepSystem, stepProc, hmem, fetchPackage, hdl,
            extractPhase, hext, cleanupPhase, hrm1]
        · rcases hrm2 : removeEntry (outputDirOf pn) fs5 with e | fs6
          · simp [runSchedule, stepSystem, stepProc, hmem, fetchPackage, hdl,
              extractPhase, hext, cleanupPhase, hrm1, hrm2]
          · simp [runSchedule, stepSystem, stepProc, hmem, fetchPackage, hdl,
              extractPhase, hext, cleanupPhase, hrm1, hrm2]

end Repkg
